import Mathlib

/-!
Verification of the resilient request-execution core of the
homeassistant-server MCP server, shallowly embedded from the TypeScript
source: the fixed-window rate limiter (checkRateLimit), the bounded
retry executor (withRetry), the input validation and sanitization gate
(sanitizeInput, validateEntityId), the tool handlers that compose them
(getEntityState, callService), and the WebSocket configuration-flow
negotiation (createTodoListViaWebSocket).
-/

namespace HAMCP

/-! ## Rate limiter (checkRateLimit) -/

/-- RateLimitEntry from the source: count plus resetTime (both numbers;
timestamps in milliseconds, modelled as Nat since Date.now is nonnegative). -/
structure RateLimitEntry where
  count : Nat
  resetTime : Nat
  deriving DecidableEq, Repr

/-- The rate-limit configuration fields of Config used by checkRateLimit. -/
structure RLConfig where
  rateLimitWindow : Nat
  rateLimitMax : Nat
  deriving DecidableEq, Repr

/-- The rateLimitMap, keyed by client id. -/
def RateLimitMap : Type := String → Option RateLimitEntry

/-- The empty map: the initial value of rateLimitMap. -/
def emptyRateLimitMap : RateLimitMap := fun _ => none

/-- Map.set on the rateLimitMap. -/
def rlSet (m : RateLimitMap) (k : String) (v : RateLimitEntry) : RateLimitMap :=
  fun q => if q = k then some v else m q

/-- checkRateLimit, embedded from the source.  It reads the entry for
clientId; if there is none or now is strictly greater than its resetTime it
stores a fresh entry with count 1 and resetTime now + rateLimitWindow and
allows; otherwise it denies when count has reached rateLimitMax and
increments and allows when it has not.  Returns the verdict and the map
after the call. -/
def checkRateLimit (cfg : RLConfig) (m : RateLimitMap) (now : Nat)
    (clientId : String := "default") : Bool × RateLimitMap :=
  match m clientId with
  | none =>
      (true, rlSet m clientId ⟨1, now + cfg.rateLimitWindow⟩)
  | some entry =>
      if now > entry.resetTime then
        (true, rlSet m clientId ⟨1, now + cfg.rateLimitWindow⟩)
      else if entry.count ≥ cfg.rateLimitMax then
        (false, m)
      else
        (true, rlSet m clientId ⟨entry.count + 1, entry.resetTime⟩)

/-- Running a sequence of checkRateLimit calls (one caller, one call per
listed timestamp) through the map, returning the final map and the number
of allowed calls. -/
def runCalls (cfg : RLConfig) (m : RateLimitMap) (clientId : String) :
    List Nat → RateLimitMap × Nat
  | [] => (m, 0)
  | t :: ts =>
      let r := checkRateLimit cfg m t clientId
      let rest := runCalls cfg r.2 clientId ts
      (rest.1, (if r.1 then 1 else 0) + rest.2)

/-- A rate-limit state with the single default entry at count 1 and
resetTime 100, under a maximum of 1 request per window. -/
def rlMapAtLimit : RateLimitMap :=
  fun q => if q = "default" then some ⟨1, 100⟩ else none

/-- A rate-limit state with the default entry at the maximum count 2. -/
def rlMapExhausted : RateLimitMap :=
  fun q => if q = "default" then some ⟨2, 100⟩ else none

/-! ## Validator (sanitizeInput, validateEntityId) -/

/-- The character class removed by sanitizeInput: the regex class of
less-than (60), greater-than (62), double quote (34), apostrophe (39) and
ampersand (38), written by code point. -/
def isUnsafeChar (c : Char) : Bool :=
  c.toNat = 60 || c.toNat = 62 || c.toNat = 34 || c.toNat = 39 || c.toNat = 38

/-- sanitizeInput from the source: replaces every unsafe character by the
empty string, i.e. removes it. -/
def sanitizeInput (s : String) : String :=
  String.mk (s.toList.filter (fun c => !(isUnsafeChar c)))

/-- Membership in the regex class of lowercase letters (97-122) and
underscore (95): the domain part of an entity id. -/
def isDomainChar (c : Char) : Bool :=
  (97 ≤ c.toNat && c.toNat ≤ 122) || c.toNat = 95

/-- Membership in the regex class of lowercase letters, digits (48-57) and
underscore: the object part of an entity id. -/
def isObjectChar (c : Char) : Bool :=
  (97 ≤ c.toNat && c.toNat ≤ 122) || (48 ≤ c.toNat && c.toNat ≤ 57) || c.toNat = 95

/-- validateEntityId from the source: the anchored regex of one or more
domain characters, a literal dot, and one or more object characters.
Neither class contains the dot, so the string splits at its first dot. -/
def validateEntityId (s : String) : Bool :=
  match s.toList.span (fun c => c != Char.ofNat 46) with
  | (dom, rest) =>
      match rest with
      | [] => false
      | _ :: obj =>
          !dom.isEmpty && dom.all isDomainChar && !obj.isEmpty && obj.all isObjectChar

/-! ## Retry executor (withRetry) -/

/-- The outcome of withRetry: the value of a successful attempt, the error
thrown by the last attempt, or the unreachable fallback throw after a loop
over zero attempts. -/
inductive RetryResult (E A : Type) where
  | ok (a : A)
  | err (e : E)
  | exhausted
  deriving DecidableEq, Repr

/-- Observable trace of one withRetry call: its outcome, how many times the
operation was invoked, and the list of waits performed (each of the
configured delay). -/
structure RetryTrace (E A : Type) where
  result : RetryResult E A
  invocations : Nat
  delays : List Nat
  deriving DecidableEq, Repr

/-- The retry loop of withRetry from iteration i with the given number of
iterations remaining.  op j is the outcome of the j-th invocation of the
wrapped operation (0-indexed).  A successful attempt returns at once with
no wait; a failing final attempt rethrows the error unchanged; a failing
non-final attempt waits for the delay d and continues.  Zero remaining
iterations fall through to the fallback throw after the loop. -/
def withRetryGo {E A : Type} (op : Nat → Except E A) (d : Nat) :
    Nat → Nat → RetryTrace E A
  | _, 0 => ⟨.exhausted, 0, []⟩
  | i, n + 1 =>
      match op i with
      | .ok a => ⟨.ok a, 1, []⟩
      | .error e =>
          match n with
          | 0 => ⟨.err e, 1, []⟩
          | m + 1 =>
              let t := withRetryGo op d (i + 1) (m + 1)
              ⟨t.result, t.invocations + 1, d :: t.delays⟩

/-- withRetry from the source: the loop over attempts iterations starting
at iteration 0. -/
def withRetry {E A : Type} (op : Nat → Except E A) (d : Nat)
    (attempts : Nat) : RetryTrace E A :=
  withRetryGo op d 0 attempts

/-! ## Tool handlers (getEntityState, callService) -/

/-- Observable outcome of a tool handler before any HTTP exchange: the
rate-limit rejection (an McpError with code InternalError and message
Rate limit exceeded), a validation rejection (an McpError with code
InvalidParams and the given message), or an HTTP request issued against
the given path. -/
inductive HandlerOutcome where
  | rateLimited
  | invalidArg (msg : String)
  | request (path : String)
  deriving DecidableEq, Repr

/-- The body of getEntityState after the rate-limit gate, as a function of
the checkRateLimit verdict and the raw entity_id argument: first the
rate-limit check, then the presence check on entity_id (the falsy string
is the empty one), then sanitization, then validation of the sanitized id,
then the GET against /api/states/ with the sanitized id. -/
def getEntityState (rlOk : Bool) (entity_id : String) : HandlerOutcome :=
  if rlOk = false then .rateLimited
  else if entity_id = "" then .invalidArg "entity_id is required"
  else
    let s := sanitizeInput entity_id
    if validateEntityId s = false then .invalidArg "Invalid entity_id format"
    else .request ("/api/states/" ++ s)

/-- getEntityState with the rate-limit state threaded: the handler calls
checkRateLimit first (mutating the map), and only then validates. -/
def getEntityStateStep (cfg : RLConfig) (m : RateLimitMap) (now : Nat)
    (entity_id : String) : HandlerOutcome × RateLimitMap :=
  let r := checkRateLimit cfg m now "default"
  (getEntityState r.1 entity_id, r.2)

/-- The deny-list of dangerous services from callService. -/
def dangerousServices : List String :=
  ["homeassistant.restart", "homeassistant.stop", "recorder.purge", "system_log.clear"]

/-- The regex of one or more lowercase alphanumerics or underscores used to
validate domain and service names in callService. -/
def validServiceName (s : String) : Bool :=
  !s.toList.isEmpty && s.toList.all isObjectChar

/-- The per-entity validation loop over target.entity_id in callService:
the first target id whose sanitized form fails validateEntityId aborts the
call. -/
def firstInvalidTarget : List String → Option String
  | [] => none
  | e :: es =>
      if validateEntityId (sanitizeInput e) = false then some e
      else firstInvalidTarget es

/-- callService embedded from the source, with the rate-limit state
threaded: rate limit first, then presence of domain and service, then
sanitization and format validation, then validation of any target entity
ids, then the deny-list check on the sanitized full service name, and only
then the POST to /api/services/. -/
def callService (cfg : RLConfig) (m : RateLimitMap) (now : Nat)
    (domain service : String) (targetEntityIds : List String) :
    HandlerOutcome × RateLimitMap :=
  let r := checkRateLimit cfg m now "default"
  let out :=
    if r.1 = false then HandlerOutcome.rateLimited
    else if domain = "" || service = "" then
      .invalidArg "domain and service are required"
    else
      let sd := sanitizeInput domain
      let ss := sanitizeInput service
      if !(validServiceName sd && validServiceName ss) then
        .invalidArg "Invalid domain or service name format"
      else
        match firstInvalidTarget targetEntityIds with
        | some bad => .invalidArg ("Invalid entity_id format: " ++ bad)
        | none =>
            let full := sd ++ "." ++ ss
            if full ∈ dangerousServices then
              .invalidArg ("Service " ++ full ++ " is not allowed for security reasons")
            else .request ("/api/services/" ++ sd ++ "/" ++ ss)
  (out, r.2)

/-! ## WebSocket configuration-flow negotiation (createTodoListViaWebSocket)

The session closure holds messageId (starting at 1), the authenticated
flag, and the socket.  The message handler, the error handler, the close
handler and the 30-second timeout callback are embedded as a step function
over that state; each step emits the outbound messages sent and the
invocations of resolve and reject performed. -/

/-- An inbound WebSocket message, by the fields the handler inspects: its
type tag and, for result messages, the success flag and the optional
flow_id and title fields of the result payload. -/
inductive WsMsg where
  | auth_required
  | auth_ok
  | auth_invalid
  | result (success : Bool) (flowId : Option String) (title : Option String)
  | other
  deriving DecidableEq, Repr

/-- An event delivered to the session: an inbound message, an error event,
a close event, or the 30-second timeout firing. -/
inductive WsEvent where
  | msg (m : WsMsg)
  | errorEvt (message : String)
  | closeEvt
  | timerFire
  deriving DecidableEq, Repr

/-- An outbound message sent over the socket: the auth message, the
config_entries flow init command with its message id and handler, or the
config_entries flow configure command with its message id, flow_id and the
requested name. -/
inductive WsOut where
  | auth
  | flowInit (id : Nat) (handler : String)
  | flowConfigure (id : Nat) (flowId : String) (name : String)
  deriving DecidableEq, Repr

/-- The structured payload the call resolves with: the list_created flag,
the list name, and the message field. -/
structure FlowPayload where
  list_created : Bool
  list_name : String
  message : String
  deriving DecidableEq, Repr

/-- One invocation of resolve or reject on the promise of the call. -/
inductive Settle where
  | resolve (p : FlowPayload)
  | reject (message : String)
  deriving DecidableEq, Repr

/-- The mutable state of the session closure. -/
structure WsState where
  messageId : Nat
  authenticated : Bool
  socketOpen : Bool
  deriving DecidableEq, Repr

/-- The state at the start of the session. -/
def wsInit : WsState := ⟨1, false, true⟩

/-- cleanup from the source: closes the socket when it is still open. -/
def wsCleanup (st : WsState) : WsState := { st with socketOpen := false }

/-- The message handler of createTodoListViaWebSocket for one inbound
message: auth_required sends auth; auth_ok marks the session authenticated
and sends flow init with the current messageId (then increments it);
auth_invalid cleans up and rejects; a successful result with a flow_id
sends flow configure with the next messageId; a successful result with a
title cleans up and resolves with a created payload; a successful result
with neither cleans up and resolves with an unexpected-format payload; an
unsuccessful result cleans up and resolves with a flow-failed payload;
everything else is logged and ignored. -/
def handleMessage (listName : String) (st : WsState) :
    WsMsg → WsState × List WsOut × List Settle
  | .auth_required => (st, [.auth], [])
  | .auth_ok =>
      ({ st with authenticated := true, messageId := st.messageId + 1 },
       [.flowInit st.messageId "local_todo"], [])
  | .auth_invalid =>
      (wsCleanup st, [], [.reject "WebSocket authentication failed"])
  | .result success flowId title =>
      if success then
        match flowId with
        | some fid =>
            ({ st with messageId := st.messageId + 1 },
             [.flowConfigure st.messageId fid listName], [])
        | none =>
            match title with
            | some _ =>
                (wsCleanup st, [],
                 [.resolve ⟨true, listName,
                    "Successfully created todo list via WebSocket config flow"⟩])
            | none =>
                (wsCleanup st, [],
                 [.resolve ⟨false, listName,
                    "WebSocket config flow returned unexpected format"⟩])
      else
        (wsCleanup st, [],
         [.resolve ⟨false, listName,
            "Local todo config flow does not support programmatic creation or requires different parameters"⟩])
  | .other => (st, [], [])

/-- One event step of the session: the message handler, the error handler
(cleanup then reject), the close handler (reject when the session was
never authenticated), and the timeout callback (cleanup then reject) -
the timeout in the source is never cleared, so its firing is an ordinary
event of every complete session, whatever state it finds. -/
def handleEvent (listName : String) (st : WsState) :
    WsEvent → WsState × List WsOut × List Settle
  | .msg m => handleMessage listName st m
  | .errorEvt emsg =>
      (wsCleanup st, [], [.reject ("WebSocket error: " ++ emsg)])
  | .closeEvt =>
      (st, [],
       if st.authenticated then []
       else [.reject "WebSocket connection closed before authentication"])
  | .timerFire =>
      (wsCleanup st, [], [.reject "WebSocket operation timed out"])

/-- Running the session over a sequence of events from a given state,
accumulating outbound messages and settle invocations in order. -/
def runSessionFrom (listName : String) (st : WsState) :
    List WsEvent → WsState × List WsOut × List Settle
  | [] => (st, [], [])
  | e :: es =>
      let r := handleEvent listName st e
      let rest := runSessionFrom listName r.1 es
      (rest.1, r.2.1 ++ rest.2.1, r.2.2 ++ rest.2.2)

/-- Running the session from its initial state. -/
def runSession (listName : String) (events : List WsEvent) :
    WsState × List WsOut × List Settle :=
  runSessionFrom listName wsInit events

/-- The settle invocations of a session run. -/
def sessionSettles (listName : String) (events : List WsEvent) : List Settle :=
  (runSession listName events).2.2

/-! ## Concrete inputs used to exercise the definitions -/

/-- An operation that fails once with error 7 and then returns 5. -/
def retryOpFailOnce : Nat → Except Nat Nat :=
  fun i => if i = 0 then Except.error 7 else Except.ok 5

/-- An operation that fails on every invocation, with the invocation index
as the error. -/
def retryOpAlwaysFail : Nat → Except Nat Nat :=
  fun i => Except.error i

/-- The scripted happy-path inbound sequence of the negotiation. -/
def wsHappyTrace : List WsEvent :=
  [.msg .auth_required, .msg .auth_ok,
   .msg (.result true (some "f1") none),
   .msg (.result true none (some "X"))]

/-! ## Theorems -/

/-- C1 counterexample: with a maximum of 1 and the sole entry at count 1
and resetTime 100, a call made exactly at time 100 is denied and the entry
is left at count 1 and resetTime 100 - not replaced by a fresh allowed
entry as the claim states, because checkRateLimit resets only when now is
strictly greater than resetTime. -/
theorem checkRateLimit_at_resetTime_denied :
    rlMapAtLimit "default" = some ⟨1, 100⟩
    ∧ (checkRateLimit ⟨60000, 1⟩ rlMapAtLimit 100 "default").1 = false
    ∧ ((checkRateLimit ⟨60000, 1⟩ rlMapAtLimit 100 "default").2) "default"
        = some ⟨1, 100⟩ := by
  refine ⟨rfl, rfl, rfl⟩

/-- C1 amended: a call strictly after resetTime replaces the entry with
count 1 and resetTime now + window and is allowed even when the old count
had reached the maximum; a call exactly at resetTime is still inside the
window: it is denied when the count has reached the maximum and increments
the count (keeping resetTime) otherwise. -/
theorem checkRateLimit_reset_boundary (cfg : RLConfig) (m : RateLimitMap)
    (now : Nat) (cid : String) (e : RateLimitEntry) (hm : m cid = some e) :
    (now > e.resetTime →
      checkRateLimit cfg m now cid =
        (true, rlSet m cid ⟨1, now + cfg.rateLimitWindow⟩))
    ∧ (now = e.resetTime → cfg.rateLimitMax ≤ e.count →
      checkRateLimit cfg m now cid = (false, m))
    ∧ (now = e.resetTime → e.count < cfg.rateLimitMax →
      checkRateLimit cfg m now cid =
        (true, rlSet m cid ⟨e.count + 1, e.resetTime⟩)) := by
  unfold checkRateLimit
  rw [hm]
  refine ⟨fun h => by simp [h], fun h hc => ?_, fun h hc => ?_⟩
  · subst h
    simp [Nat.lt_irrefl, hc]
  · subst h
    simp [Nat.lt_irrefl, Nat.not_le.mpr hc]

/-- Witness for the amended C1 theorem at concrete inputs: a call at time
101 on the entry with resetTime 100 resets it, a call at time 100 with the
count at the maximum is denied without change. -/
theorem checkRateLimit_reset_boundary_witness :
    checkRateLimit ⟨60000, 1⟩ rlMapAtLimit 101 "default" =
      (true, rlSet rlMapAtLimit "default" ⟨1, 101 + 60000⟩)
    ∧ checkRateLimit ⟨60000, 1⟩ rlMapAtLimit 100 "default" = (false, rlMapAtLimit) :=
  ⟨(checkRateLimit_reset_boundary ⟨60000, 1⟩ rlMapAtLimit 101 "default" ⟨1, 100⟩
      (by rfl)).1 (by decide),
   (checkRateLimit_reset_boundary ⟨60000, 1⟩ rlMapAtLimit 100 "default" ⟨1, 100⟩
      (by rfl)).2.1 rfl (by decide)⟩

/-- Branch equation of checkRateLimit: inside the window at capacity. -/
lemma checkRateLimit_eq_of_full (cfg : RLConfig) (m : RateLimitMap)
    (now : Nat) (cid : String) (e : RateLimitEntry) (hm : m cid = some e)
    (hin : ¬ now > e.resetTime) (hmax : cfg.rateLimitMax ≤ e.count) :
    checkRateLimit cfg m now cid = (false, m) := by
  unfold checkRateLimit
  rw [hm]
  simp [hin, hmax]

/-- C10: a denied call - an entry exists, now is not past its resetTime,
and its count has reached the maximum - returns false and returns the map
itself, so no entry of the rate-limit map is modified by a denied call. -/
theorem checkRateLimit_denied_frame (cfg : RLConfig) (m : RateLimitMap)
    (now : Nat) (cid : String) (e : RateLimitEntry) (hm : m cid = some e)
    (hin : ¬ now > e.resetTime) (hmax : cfg.rateLimitMax ≤ e.count) :
    checkRateLimit cfg m now cid = (false, m) :=
  checkRateLimit_eq_of_full cfg m now cid e hm hin hmax

/-- Witness for C10 at a concrete exhausted state: the denied call returns
false and the very same map. -/
theorem checkRateLimit_denied_frame_witness :
    checkRateLimit ⟨60000, 2⟩ rlMapExhausted 50 "default" = (false, rlMapExhausted) :=
  checkRateLimit_denied_frame ⟨60000, 2⟩ rlMapExhausted 50 "default" ⟨2, 100⟩
    (by rfl) (by decide) (by decide)

/-- Branch equation of checkRateLimit: no entry yet. -/
lemma checkRateLimit_eq_of_none (cfg : RLConfig) (m : RateLimitMap)
    (now : Nat) (cid : String) (hm : m cid = none) :
    checkRateLimit cfg m now cid =
      (true, rlSet m cid ⟨1, now + cfg.rateLimitWindow⟩) := by
  unfold checkRateLimit
  rw [hm]

/-- Branch equation of checkRateLimit: the window has expired. -/
lemma checkRateLimit_eq_of_reset (cfg : RLConfig) (m : RateLimitMap)
    (now : Nat) (cid : String) (e : RateLimitEntry) (hm : m cid = some e)
    (h : now > e.resetTime) :
    checkRateLimit cfg m now cid =
      (true, rlSet m cid ⟨1, now + cfg.rateLimitWindow⟩) := by
  unfold checkRateLimit
  rw [hm]
  simp [h]

/-- Branch equation of checkRateLimit: inside the window with capacity
left. -/
lemma checkRateLimit_eq_of_incr (cfg : RLConfig) (m : RateLimitMap)
    (now : Nat) (cid : String) (e : RateLimitEntry) (hm : m cid = some e)
    (h1 : ¬ now > e.resetTime) (h2 : e.count < cfg.rateLimitMax) :
    checkRateLimit cfg m now cid =
      (true, rlSet m cid ⟨e.count + 1, e.resetTime⟩) := by
  unfold checkRateLimit
  rw [hm]
  simp [h1, Nat.not_le.mpr h2]

/-- Reading the map written by rlSet. -/
lemma rlSet_lookup (m : RateLimitMap) (k : String) (v : RateLimitEntry)
    (q : String) : rlSet m k v q = if q = k then some v else m q := rfl

/-- One checkRateLimit call preserves the bound count at most max on every
entry of the map, provided the maximum is at least 1 (a fresh entry starts
at count 1). -/
lemma checkRateLimit_preserves_bound (cfg : RLConfig)
    (hmax : 1 ≤ cfg.rateLimitMax) (m : RateLimitMap) (now : Nat) (cid : String)
    (hinv : ∀ k e, m k = some e → e.count ≤ cfg.rateLimitMax) :
    ∀ k e, (checkRateLimit cfg m now cid).2 k = some e →
      e.count ≤ cfg.rateLimitMax := by
  intro k e hk
  cases hm : m cid with
  | none =>
      rw [checkRateLimit_eq_of_none cfg m now cid hm] at hk
      rw [show (true, rlSet m cid (⟨1, now + cfg.rateLimitWindow⟩ : RateLimitEntry)).2
          = rlSet m cid ⟨1, now + cfg.rateLimitWindow⟩ from rfl, rlSet_lookup] at hk
      by_cases hkc : k = cid
      · rw [if_pos hkc] at hk
        cases hk
        exact hmax
      · rw [if_neg hkc] at hk
        exact hinv k e hk
  | some entry =>
      by_cases hreset : now > entry.resetTime
      · rw [checkRateLimit_eq_of_reset cfg m now cid entry hm hreset] at hk
        rw [show (true, rlSet m cid (⟨1, now + cfg.rateLimitWindow⟩ : RateLimitEntry)).2
            = rlSet m cid ⟨1, now + cfg.rateLimitWindow⟩ from rfl, rlSet_lookup] at hk
        by_cases hkc : k = cid
        · rw [if_pos hkc] at hk
          cases hk
          exact hmax
        · rw [if_neg hkc] at hk
          exact hinv k e hk
      · by_cases hfull : cfg.rateLimitMax ≤ entry.count
        · rw [checkRateLimit_eq_of_full cfg m now cid entry hm hreset hfull] at hk
          exact hinv k e hk
        · have hlt : entry.count < cfg.rateLimitMax := Nat.lt_of_not_le hfull
          rw [checkRateLimit_eq_of_incr cfg m now cid entry hm hreset hlt] at hk
          rw [show (true, rlSet m cid (⟨entry.count + 1, entry.resetTime⟩ : RateLimitEntry)).2
              = rlSet m cid ⟨entry.count + 1, entry.resetTime⟩ from rfl, rlSet_lookup] at hk
          by_cases hkc : k = cid
          · rw [if_pos hkc] at hk
            cases hk
            exact hlt
          · rw [if_neg hkc] at hk
            exact hinv k e hk

/-- Running any sequence of calls from a map whose counts are bounded by
the maximum keeps every count bounded by the maximum. -/
lemma runCalls_preserves_bound (cfg : RLConfig)
    (hmax : 1 ≤ cfg.rateLimitMax) (cid : String) :
    ∀ (ts : List Nat) (m : RateLimitMap),
      (∀ k e, m k = some e → e.count ≤ cfg.rateLimitMax) →
      ∀ k e, (runCalls cfg m cid ts).1 k = some e →
        e.count ≤ cfg.rateLimitMax := by
  intro ts
  induction ts with
  | nil => intro m hinv k e hk; exact hinv k e hk
  | cons t ts ih =>
      intro m hinv k e hk
      exact ih _ (checkRateLimit_preserves_bound cfg hmax m t cid hinv) k e hk

/-- Staying inside one window (every call time at most the resetTime of
the current entry), the number of allowed calls is at most the remaining
budget max minus count of that entry. -/
lemma runCalls_inWindow (cfg : RLConfig) (cid : String) :
    ∀ (ts : List Nat) (m : RateLimitMap) (e : RateLimitEntry),
      m cid = some e → (∀ t ∈ ts, t ≤ e.resetTime) →
      (runCalls cfg m cid ts).2 ≤ cfg.rateLimitMax - e.count := by
  intro ts
  induction ts with
  | nil => intro m e _ _; simp [runCalls]
  | cons t ts ih =>
      intro m e hm hts
      have htin : ¬ t > e.resetTime := Nat.not_lt.mpr (hts t (List.mem_cons_self t ts))
      have htail : ∀ u ∈ ts, u ≤ e.resetTime := fun u hu => hts u (List.mem_cons_of_mem t hu)
      by_cases hfull : cfg.rateLimitMax ≤ e.count
      · have hcall : checkRateLimit cfg m t cid = (false, m) :=
          checkRateLimit_eq_of_full cfg m t cid e hm htin hfull
        have hrec := ih m e hm htail
        simp only [runCalls, hcall]
        simpa using hrec
      · have hlt : e.count < cfg.rateLimitMax := Nat.lt_of_not_le hfull
        have hcall : checkRateLimit cfg m t cid =
            (true, rlSet m cid ⟨e.count + 1, e.resetTime⟩) := by
          unfold checkRateLimit
          rw [hm]
          simp [htin, hfull]
        have hm' : rlSet m cid ⟨e.count + 1, e.resetTime⟩ cid =
            some ⟨e.count + 1, e.resetTime⟩ := by simp [rlSet]
        have hrec : (runCalls cfg (rlSet m cid ⟨e.count + 1, e.resetTime⟩) cid ts).2 ≤
            cfg.rateLimitMax - (e.count + 1) :=
          ih (rlSet m cid ⟨e.count + 1, e.resetTime⟩)
            ⟨e.count + 1, e.resetTime⟩ hm' htail
        simp only [runCalls, hcall, if_pos]
        omega

/-- C4: over every sequence of calls from the initial empty map, the
stored count of every entry never exceeds the configured maximum (the
maximum being at least 1, as configured); and for every sequence whose
calls all lie within the window opened by its first call, at most max of
them are allowed. -/
theorem checkRateLimit_count_bounded (cfg : RLConfig)
    (hmax : 1 ≤ cfg.rateLimitMax) (cid : String) :
    (∀ (ts : List Nat) (k : String) (e : RateLimitEntry),
      (runCalls cfg emptyRateLimitMap cid ts).1 k = some e →
        e.count ≤ cfg.rateLimitMax)
    ∧ (∀ (t0 : Nat) (ts : List Nat),
      (∀ t ∈ ts, t ≤ t0 + cfg.rateLimitWindow) →
        (runCalls cfg emptyRateLimitMap cid (t0 :: ts)).2 ≤ cfg.rateLimitMax) := by
  constructor
  · intro ts k e hk
    exact runCalls_preserves_bound cfg hmax cid ts emptyRateLimitMap
      (fun k e h => by simp [emptyRateLimitMap] at h) k e hk
  · intro t0 ts hts
    have hfirst : checkRateLimit cfg emptyRateLimitMap t0 cid =
        (true, rlSet emptyRateLimitMap cid ⟨1, t0 + cfg.rateLimitWindow⟩) := by
      unfold checkRateLimit
      simp [emptyRateLimitMap]
    have hm' : rlSet emptyRateLimitMap cid ⟨1, t0 + cfg.rateLimitWindow⟩ cid =
        some ⟨1, t0 + cfg.rateLimitWindow⟩ := by simp [rlSet]
    have hrest : (runCalls cfg
        (rlSet emptyRateLimitMap cid ⟨1, t0 + cfg.rateLimitWindow⟩) cid ts).2 ≤
        cfg.rateLimitMax - 1 :=
      runCalls_inWindow cfg cid ts
        (rlSet emptyRateLimitMap cid ⟨1, t0 + cfg.rateLimitWindow⟩)
        ⟨1, t0 + cfg.rateLimitWindow⟩ hm' hts
    simp only [runCalls, hfirst, if_pos]
    omega

/-- Witness for C4 with the default configuration of a 60000 ms window and
a maximum of 100 requests. -/
theorem checkRateLimit_count_bounded_witness :
    (∀ (ts : List Nat) (k : String) (e : RateLimitEntry),
      (runCalls ⟨60000, 100⟩ emptyRateLimitMap "default" ts).1 k = some e →
        e.count ≤ (100 : Nat))
    ∧ (∀ (t0 : Nat) (ts : List Nat),
      (∀ t ∈ ts, t ≤ t0 + 60000) →
        (runCalls ⟨60000, 100⟩ emptyRateLimitMap "default" (t0 :: ts)).2 ≤ 100) :=
  checkRateLimit_count_bounded ⟨60000, 100⟩ (by decide) "default"

/-- From iteration i with n iterations remaining: if the operation fails
for k further invocations and then succeeds, the loop returns that success
after exactly k + 1 invocations with exactly k waits. -/
lemma withRetryGo_ok {E A : Type} (op : Nat → Except E A) (d : Nat) :
    ∀ (k i n : Nat) (a : A), k < n →
      (∀ j, j < k → ∃ e, op (i + j) = Except.error e) →
      op (i + k) = Except.ok a →
      withRetryGo op d i n = ⟨.ok a, k + 1, List.replicate k d⟩ := by
  intro k
  induction k with
  | zero =>
      intro i n a hn hfail hok
      rw [Nat.add_zero] at hok
      cases n with
      | zero => omega
      | succ m => simp [withRetryGo, hok]
  | succ k ih =>
      intro i n a hn hfail hok
      obtain ⟨e, he⟩ := hfail 0 (Nat.succ_pos k)
      rw [Nat.add_zero] at he
      cases n with
      | zero => omega
      | succ m =>
          cases m with
          | zero => omega
          | succ m' =>
              have hrec := ih (i + 1) (m' + 1) a (by omega)
                (fun j hj => by
                  have h := hfail (j + 1) (by omega)
                  rwa [show i + (j + 1) = i + 1 + j by omega] at h)
                (by rwa [show i + 1 + k = i + (k + 1) by omega])
              simp [withRetryGo, he, hrec, List.replicate_succ]

/-- From iteration i with n at least 1 iterations remaining: if the
operation fails on every invocation, the loop invokes it exactly n times,
waits n - 1 times, and rethrows the last failure unchanged. -/
lemma withRetryGo_allFail {E A : Type} (op : Nat → Except E A) (d : Nat)
    (f : Nat → E) (hf : ∀ j, op j = Except.error (f j)) :
    ∀ (n : Nat), 1 ≤ n → ∀ (i : Nat),
      withRetryGo op d i n =
        ⟨.err (f (i + n - 1)), n, List.replicate (n - 1) d⟩ := by
  intro n
  induction n with
  | zero => omega
  | succ m ih =>
      intro _ i
      cases m with
      | zero => simp [withRetryGo, hf i]
      | succ m' =>
          have hrec := ih (by omega) (i + 1)
          have harith : i + 1 + (m' + 1) - 1 = i + (m' + 1 + 1) - 1 := by omega
          simp only [withRetryGo, hf i, hrec, harith]
          simp [List.replicate_succ]

/-- C2: for attempts N at least 1, withRetry with an operation failing k
times (k below N) and then succeeding invokes it exactly k + 1 times,
returns its success, and waits exactly k times (each wait of the delay d,
one between each consecutive pair of attempts, none after the success);
with an always-failing operation it invokes it exactly N times, waits
exactly N - 1 times of d each, and propagates the N-th failure unchanged. -/
theorem withRetry_spec {E A : Type} (op : Nat → Except E A) (d N : Nat)
    (hN : 1 ≤ N) :
    (∀ (k : Nat) (a : A), k < N →
      (∀ j, j < k → ∃ e, op j = Except.error e) →
      op k = Except.ok a →
      withRetry op d N = ⟨.ok a, k + 1, List.replicate k d⟩)
    ∧ (∀ f : Nat → E, (∀ j, op j = Except.error (f j)) →
      withRetry op d N = ⟨.err (f (N - 1)), N, List.replicate (N - 1) d⟩) := by
  constructor
  · intro k a hk hfail hok
    exact withRetryGo_ok op d k 0 N a hk
      (fun j hj => by simpa using hfail j hj) (by simpa using hok)
  · intro f hf
    have h := withRetryGo_allFail op d f hf N hN 0
    simpa using h

/-- Witness for C2 at concrete operations: an operation failing once then
returning 5 gives 2 invocations and a single wait; an operation failing
always over 3 attempts gives 3 invocations, 2 waits, and error 2. -/
theorem withRetry_spec_witness :
    (1 : Nat) ≤ 3
    ∧ withRetry retryOpFailOnce 10 3 = ⟨.ok 5, 2, [10]⟩
    ∧ withRetry retryOpAlwaysFail 10 3 = ⟨.err 2, 3, [10, 10]⟩ :=
  ⟨by decide,
   (withRetry_spec retryOpFailOnce 10 3 (by decide)).1 1 5 (by decide)
     (fun j hj => ⟨7, by
        have hj0 : j = 0 := by omega
        subst hj0
        rfl⟩)
     (by rfl),
   (withRetry_spec retryOpAlwaysFail 10 3 (by decide)).2 (fun j => j)
     (fun j => rfl)⟩

/-- A denying checkRateLimit call leaves the map untouched. -/
lemma checkRateLimit_false_frame (cfg : RLConfig) (m : RateLimitMap)
    (now : Nat) (cid : String)
    (h : (checkRateLimit cfg m now cid).1 = false) :
    (checkRateLimit cfg m now cid).2 = m := by
  cases hm : m cid with
  | none =>
      rw [checkRateLimit_eq_of_none cfg m now cid hm] at h
      simp at h
  | some e =>
      by_cases hr : now > e.resetTime
      · rw [checkRateLimit_eq_of_reset cfg m now cid e hm hr] at h
        simp at h
      · by_cases hf : cfg.rateLimitMax ≤ e.count
        · rw [checkRateLimit_eq_of_full cfg m now cid e hm hr hf]
        · rw [checkRateLimit_eq_of_incr cfg m now cid e hm hr
            (Nat.lt_of_not_le hf)] at h
          simp at h

/-- C3 counterexample: with the rate limit exhausted, a getEntityState
call whose argument fails validation (no dot in not_an_entity) surfaces
the rate-limit error rather than the validation error; and with quota
available, the same invalid call still consumes one unit of quota (a fresh
entry with count 1 appears although no request will be issued). -/
theorem getEntityState_invalid_not_before_rateLimit :
    validateEntityId (sanitizeInput "not_an_entity") = false
    ∧ (getEntityStateStep ⟨60000, 2⟩ rlMapExhausted 50 "not_an_entity").1 =
        .rateLimited
    ∧ (getEntityStateStep ⟨60000, 2⟩ emptyRateLimitMap 0 "not_an_entity").1 =
        .invalidArg "Invalid entity_id format"
    ∧ ((getEntityStateStep ⟨60000, 2⟩ emptyRateLimitMap 0 "not_an_entity").2)
        "default" = some ⟨1, 60000⟩ := by
  refine ⟨by decide, by decide, by decide, by decide⟩

/-- C3 amended: the rate limiter is consulted before the validator.  A
call denied by the rate limiter surfaces the rate-limit error whatever its
arguments, leaving the map unchanged; a call admitted by the rate limiter
has already updated the map (consuming quota) before its arguments are
validated, and an in-window admitted call increments the stored count by
one even when the arguments are invalid. -/
theorem getEntityState_rateLimiter_first (cfg : RLConfig) (m : RateLimitMap)
    (now : Nat) (eid : String) :
    ((checkRateLimit cfg m now "default").1 = false →
      getEntityStateStep cfg m now eid = (.rateLimited, m))
    ∧ ((checkRateLimit cfg m now "default").1 = true →
      getEntityStateStep cfg m now eid =
        (getEntityState true eid, (checkRateLimit cfg m now "default").2))
    ∧ (∀ e : RateLimitEntry, m "default" = some e → ¬ now > e.resetTime →
      e.count < cfg.rateLimitMax →
      ((getEntityStateStep cfg m now eid).2) "default" =
        some ⟨e.count + 1, e.resetTime⟩) := by
  refine ⟨fun h => ?_, fun h => ?_, fun e hm hr hlt => ?_⟩
  · have hframe := checkRateLimit_false_frame cfg m now "default" h
    simp [getEntityStateStep, getEntityState, h, hframe]
  · simp [getEntityStateStep, h]
  · have hcall := checkRateLimit_eq_of_incr cfg m now "default" e hm hr hlt
    simp [getEntityStateStep, hcall, rlSet_lookup]

/-- Witness for the amended C3 theorem: a denied concrete call surfaces
the rate-limit outcome with the map intact, and an admitted invalid call
bumps the stored count from 1 to 2. -/
theorem getEntityState_rateLimiter_first_witness :
    getEntityStateStep ⟨60000, 2⟩ rlMapExhausted 50 "not_an_entity" =
      (.rateLimited, rlMapExhausted)
    ∧ ((getEntityStateStep ⟨60000, 2⟩ rlMapAtLimit 50 "not_an_entity").2)
        "default" = some ⟨2, 100⟩ :=
  ⟨(getEntityState_rateLimiter_first ⟨60000, 2⟩ rlMapExhausted 50
      "not_an_entity").1 (by decide),
   (getEntityState_rateLimiter_first ⟨60000, 2⟩ rlMapAtLimit 50
      "not_an_entity").2.2 ⟨1, 100⟩ (by rfl) (by decide) (by decide)⟩

/-- C8 counterexample: with the rate limit already exhausted, a
call_service invocation of the deny-listed homeassistant.restart surfaces
the rate-limit error (code InternalError), not an InvalidArgument error -
the rate limiter is consulted before the deny-list. -/
theorem callService_dangerous_rateLimited :
    (callService ⟨60000, 2⟩ rlMapExhausted 50 "homeassistant" "restart" []).1 =
      .rateLimited := by
  decide

/-- C8 amended: a call_service invocation whose sanitized full service
name is on the deny-list never issues an HTTP request, for every
rate-limit state and every target payload; and whenever the call is
admitted by the rate limiter it throws an InvalidArgument error. -/
theorem callService_dangerous_blocked (cfg : RLConfig) (m : RateLimitMap)
    (now : Nat) (domain service : String) (targets : List String)
    (hd : sanitizeInput domain ++ "." ++ sanitizeInput service ∈ dangerousServices) :
    (∀ p, (callService cfg m now domain service targets).1 ≠ .request p)
    ∧ ((checkRateLimit cfg m now "default").1 = true →
      ∃ msg, (callService cfg m now domain service targets).1 = .invalidArg msg) := by
  constructor
  · intro p
    unfold callService
    cases hrl : (checkRateLimit cfg m now "default").1 with
    | false => simp [hrl]
    | true =>
        simp only [hrl]
        by_cases hpres : domain = "" || service = ""
        · simp [hpres]
        · simp only [hpres, Bool.false_eq_true, if_false, if_true]
          by_cases hfmt : (validServiceName (sanitizeInput domain) &&
              validServiceName (sanitizeInput service)) = true
          · simp only [hfmt, Bool.not_true, Bool.false_eq_true, if_false]
            cases htgt : firstInvalidTarget targets with
            | some bad => simp
            | none => simp [hd]
          · simp only [Bool.not_eq_true] at hfmt
            simp [hfmt]
  · intro hrl
    unfold callService
    simp only [hrl]
    by_cases hpres : domain = "" || service = ""
    · exact ⟨"domain and service are required", by simp [hpres]⟩
    · by_cases hfmt : (validServiceName (sanitizeInput domain) &&
          validServiceName (sanitizeInput service)) = true
      · cases htgt : firstInvalidTarget targets with
        | some bad =>
            exact ⟨"Invalid entity_id format: " ++ bad, by simp [hpres, hfmt, htgt]⟩
        | none =>
            exact ⟨"Service " ++ (sanitizeInput domain ++ "." ++ sanitizeInput service)
                ++ " is not allowed for security reasons",
              by simp [hpres, hfmt, htgt, hd]⟩
      · simp only [Bool.not_eq_true] at hfmt
        exact ⟨"Invalid domain or service name format", by simp [hpres, hfmt]⟩

/-- Witness for the amended C8 theorem: the deny-listed
homeassistant.restart under an admitting rate-limit state. -/
theorem callService_dangerous_blocked_witness :
    (∀ p, (callService ⟨60000, 100⟩ emptyRateLimitMap 0
        "homeassistant" "restart" []).1 ≠ .request p)
    ∧ ∃ msg, (callService ⟨60000, 100⟩ emptyRateLimitMap 0
        "homeassistant" "restart" []).1 = .invalidArg msg :=
  ⟨(callService_dangerous_blocked ⟨60000, 100⟩ emptyRateLimitMap 0
      "homeassistant" "restart" [] (by decide)).1,
   (callService_dangerous_blocked ⟨60000, 100⟩ emptyRateLimitMap 0
      "homeassistant" "restart" [] (by decide)).2 (by decide)⟩

/-- C9 counterexample: the two raw entity_id values consisting of a single
less-than sign and of nothing both strip to the empty string, yet the
handler treats them differently: the empty one fails the presence check
with the message entity_id is required, while the other reaches validation
and fails with Invalid entity_id format. -/
theorem getEntityState_presence_check_on_raw :
    sanitizeInput "<" = sanitizeInput ""
    ∧ getEntityState true "<" = .invalidArg "Invalid entity_id format"
    ∧ getEntityState true "" = .invalidArg "entity_id is required" := by
  refine ⟨by decide, by decide, by decide⟩

/-- C9 amended: for raw entity_id values that pass the presence check
(are nonempty), the handler behaves identically on any two raws with the
same stripped form; a raw containing the stripped characters passes
validation whenever its stripped form is well-formed, and the outbound
request path carries the stripped identifier.  Only the presence check
sees the raw input. -/
theorem getEntityState_sanitized_behavior (r1 r2 : String)
    (h1 : r1 ≠ "") (h2 : r2 ≠ "")
    (hs : sanitizeInput r1 = sanitizeInput r2) :
    getEntityState true r1 = getEntityState true r2
    ∧ (validateEntityId (sanitizeInput r1) = true →
      getEntityState true r1 = .request ("/api/states/" ++ sanitizeInput r1)) := by
  constructor
  · simp [getEntityState, h1, h2, hs]
  · intro hv
    simp [getEntityState, h1, hv]

/-- Witness for the amended C9 theorem: the raw identifier containing a
less-than sign behaves like its stripped well-formed counterpart and is
forwarded in stripped form. -/
theorem getEntityState_sanitized_behavior_witness :
    getEntityState true "light.living<room" = getEntityState true "light.livingroom"
    ∧ getEntityState true "light.living<room" =
        .request ("/api/states/" ++ sanitizeInput "light.living<room") :=
  ⟨(getEntityState_sanitized_behavior "light.living<room" "light.livingroom"
      (by decide) (by decide) (by decide)).1,
   (getEntityState_sanitized_behavior "light.living<room" "light.livingroom"
      (by decide) (by decide) (by decide)).2 (by decide)⟩

/-- C5 counterexample: a session receiving auth_required then auth_invalid
rejects the call (one reject invocation, no resolve), where the claim says
an auth_invalid message resolves the call with a negative-outcome
payload. -/
theorem wsAuthInvalid_rejects :
    sessionSettles "X" [.msg .auth_required, .msg .auth_invalid] =
      [.reject "WebSocket authentication failed"] := by
  decide

/-- C5 amended: a result message whose success flag is false resolves the
call with a structured negative-outcome payload (list_created false);
auth_invalid, transport-level error events and the deadline timeout all
reject the call. -/
theorem wsFailureSemantics (name : String) (st : WsState) (emsg : String) :
    (∀ fid title, (handleEvent name st (.msg (.result false fid title))).2.2 =
      [.resolve ⟨false, name,
        "Local todo config flow does not support programmatic creation or requires different parameters"⟩])
    ∧ (handleEvent name st (.msg .auth_invalid)).2.2 =
        [.reject "WebSocket authentication failed"]
    ∧ (handleEvent name st (.errorEvt emsg)).2.2 =
        [.reject ("WebSocket error: " ++ emsg)]
    ∧ (handleEvent name st .timerFire).2.2 =
        [.reject "WebSocket operation timed out"] :=
  ⟨fun _ _ => rfl, rfl, rfl, rfl⟩

/-- C6: on the scripted inbound sequence auth_required, auth_ok, a
successful result carrying flow_id f1, and a successful result carrying a
title, the session sends exactly auth, the flow init command with message
id 1, and the flow configure command with message id 2 - in that order -
and resolves once with the created-success payload. -/
theorem wsHappyPath (name : String) :
    (runSession name wsHappyTrace).2.1 =
      [.auth, .flowInit 1 "local_todo", .flowConfigure 2 "f1" name]
    ∧ sessionSettles name wsHappyTrace =
      [.resolve ⟨true, name,
        "Successfully created todo list via WebSocket config flow"⟩] :=
  ⟨rfl, rfl⟩

/-- Appending events to a session run concatenates the outputs and settle
invocations of the suffix run from the intermediate state. -/
lemma runSessionFrom_append (name : String) (evs1 evs2 : List WsEvent) :
    ∀ st : WsState,
      runSessionFrom name st (evs1 ++ evs2) =
        ((runSessionFrom name (runSessionFrom name st evs1).1 evs2).1,
         (runSessionFrom name st evs1).2.1 ++
           (runSessionFrom name (runSessionFrom name st evs1).1 evs2).2.1,
         (runSessionFrom name st evs1).2.2 ++
           (runSessionFrom name (runSessionFrom name st evs1).1 evs2).2.2) := by
  induction evs1 with
  | nil => intro st; simp [runSessionFrom]
  | cons e evs ih =>
      intro st
      simp only [List.cons_append, runSessionFrom]
      rw [show evs.append evs2 = evs ++ evs2 from rfl, ih]
      simp [List.append_assoc]

/-- C7 counterexample: the 30-second deadline timer is never cleared, so
it fires in every complete session; on the scripted success trace followed
by the timer firing, both resolve and reject are invoked - two settle
invocations, not exactly one - and the timer outlives the resolved call. -/
theorem wsTimerAfterResolve :
    sessionSettles "X" (wsHappyTrace ++ [.timerFire]) =
      [.resolve ⟨true, "X",
        "Successfully created todo list via WebSocket config flow"⟩,
       .reject "WebSocket operation timed out"] := by
  decide

/-- C7 amended: every complete session lifetime ends with the uncleared
deadline timer firing, whose callback always invokes reject; hence at
least one settle invocation occurs in every complete lifetime (never
zero), but not exactly one: the timer invokes reject even when the call
has already been settled, appending its reject to whatever settle
invocations the preceding events performed, so a settled call can see a
second invocation and the timer outlives the call.  Only the first
invocation settles the promise. -/
theorem wsSettles_never_zero (name : String) (evs : List WsEvent) :
    sessionSettles name (evs ++ [.timerFire]) =
      sessionSettles name evs ++ [.reject "WebSocket operation timed out"]
    ∧ sessionSettles name (evs ++ [.timerFire]) ≠ [] := by
  have happ := runSessionFrom_append name evs [.timerFire] wsInit
  constructor
  · simp only [sessionSettles, runSession, happ]
    rfl
  · simp only [sessionSettles, runSession, happ]
    simp [runSessionFrom, handleEvent]

end HAMCP
